import Mathlib

/-!
Shallow embedding of the actoripd program (src/main.rs): an iterated
prisoner's dilemma between two actors ("red" and "blue") driven by the
main loop.  Machine integers (`usize`) are modelled as `Nat`; the
`HashMap<Payoff, usize>` payoff table is modelled as a function
`Payoff → Option Nat` built by insertion; a `Strategy` trait object,
whose `choose(&mut self)` takes no arguments and can depend only on the
strategy's internal state (hence, deterministically, on how many times
it has been called — with any randomness supplied as an oracle), is
modelled as a function from the call index (= the round sequence number,
since `choose` is called exactly once per round) to the chosen `Action`.
The actix message sends in `main` are each immediately awaited, so the
loop body is sequential; it is embedded as a pure state-transition
function `step`, and the do-while loop (`loop { ...; sequence += 1;
if sequence >= ITERATIONS { break } }`) as `mainLoop`.
-/

namespace Actoripd

/-- The `Action` enum from src/main.rs. -/
inductive Action where
  | COOPERATE
  | DEFECT
deriving DecidableEq, Repr

/-- The `Payoff` enum from src/main.rs. -/
inductive Payoff where
  | NULL
  | REWARD
  | PUNISHMENT
  | TEMPTATION
  | SUCKER
deriving DecidableEq, Repr

/-- `type PayoffValues = HashMap<Payoff, usize>`, as a partial map. -/
def PayoffValues : Type := Payoff → Option Nat

/-- `HashMap::new()`. -/
def emptyPV : PayoffValues := fun _ => none

/-- `HashMap::insert`. -/
def insertPV (pv : PayoffValues) (k : Payoff) (v : Nat) : PayoffValues :=
  fun p => if p = k then some v else pv p

/-- `*payoff_values.get(&k).unwrap_or(&0)`: total lookup defaulting to 0. -/
def lookupAmount (pv : PayoffValues) (k : Payoff) : Nat :=
  (pv k).getD 0

/-- The concrete table built in `main`:
Reward ↦ 3, Temptation ↦ 4, Punishment ↦ 2, Sucker ↦ 1 (NULL absent). -/
def defaultPayoffValues : PayoffValues :=
  insertPV (insertPV (insertPV (insertPV emptyPV Payoff.REWARD 3)
    Payoff.TEMPTATION 4) Payoff.PUNISHMENT 2) Payoff.SUCKER 1

/-- `const ITERATIONS: usize = 100;` from `main`. -/
def ITERATIONS : Nat := 100

/-- `fn compute_payoff(red: Action, blue: Action) -> (Payoff, Payoff)`. -/
def compute_payoff : Action → Action → Payoff × Payoff
  | Action.COOPERATE, Action.COOPERATE => (Payoff.REWARD, Payoff.REWARD)
  | Action.DEFECT, Action.DEFECT => (Payoff.PUNISHMENT, Payoff.PUNISHMENT)
  | Action.DEFECT, Action.COOPERATE => (Payoff.SUCKER, Payoff.TEMPTATION)
  | Action.COOPERATE, Action.DEFECT => (Payoff.TEMPTATION, Payoff.SUCKER)

/-- The `Interrogate` message. -/
structure Interrogate where
  sequence : Nat
  prev_payoff : Payoff
  prev_amount : Nat

/-- The observable state of a `Prisoner` actor (its boxed strategy is
carried separately as a `Nat → Action` choice function). -/
structure Prisoner where
  name : String
  score : Nat
deriving DecidableEq, Repr

/-- `Handler<Interrogate> for Prisoner`: add the fed-back amount to the
score, then consult the strategy; return the new actor state and the
chosen action.  `strat` is the strategy's choice function and
`msg.sequence` its call index (the handler runs once per round). -/
def handleInterrogate (strat : Nat → Action) (p : Prisoner)
    (msg : Interrogate) : Prisoner × Action :=
  let p1 : Prisoner := { p with score := p.score + msg.prev_amount }
  (p1, strat msg.sequence)

/-- The mutable state of `main`'s loop: the loop-local variables plus
both actors. -/
structure RunState where
  sequence : Nat
  blue : Prisoner
  red : Prisoner
  bluePayoff : Payoff
  blueAmount : Nat
  redPayoff : Payoff
  redAmount : Nat
deriving DecidableEq, Repr

/-- The state at loop entry in `main`: fresh actors with score 0,
`sequence = 0`, both payoffs `NULL` with amount 0. -/
def initState : RunState :=
  { sequence := 0
    blue := { name := "blue", score := 0 }
    red := { name := "red", score := 0 }
    bluePayoff := Payoff.NULL
    blueAmount := 0
    redPayoff := Payoff.NULL
    redAmount := 0 }

/-- One iteration of `main`'s loop, in program order: blue is sent
`Interrogate` and its response awaited, then red; the payoff pair is
computed from `(red_action, blue_action)`; the per-agent payoff kinds
and amounts for the next round are stored; `sequence` is incremented. -/
def step (pv : PayoffValues) (redStrat blueStrat : Nat → Action)
    (s : RunState) : RunState :=
  let blueRes := handleInterrogate blueStrat s.blue
    { sequence := s.sequence, prev_payoff := s.bluePayoff, prev_amount := s.blueAmount }
  let redRes := handleInterrogate redStrat s.red
    { sequence := s.sequence, prev_payoff := s.redPayoff, prev_amount := s.redAmount }
  let payoff := compute_payoff redRes.2 blueRes.2
  { sequence := s.sequence + 1
    blue := blueRes.1
    red := redRes.1
    redPayoff := payoff.1
    redAmount := lookupAmount pv payoff.1
    bluePayoff := payoff.2
    blueAmount := lookupAmount pv payoff.2 }

/-- The state after `k` executed loop iterations, starting from
`initState`. -/
def runSteps (pv : PayoffValues) (redStrat blueStrat : Nat → Action) :
    Nat → RunState
  | 0 => initState
  | k + 1 => step pv redStrat blueStrat (runSteps pv redStrat blueStrat k)

/-- `main`'s do-while loop: run one iteration, then exit as soon as
`sequence >= iters`. -/
def mainLoop (pv : PayoffValues) (redStrat blueStrat : Nat → Action)
    (iters : Nat) (s : RunState) : RunState :=
  let s1 := step pv redStrat blueStrat s
  if h : s1.sequence ≥ iters then s1
  else mainLoop pv redStrat blueStrat iters s1
termination_by iters - s.sequence
decreasing_by
  simp only [not_le] at h
  have hseq : (step pv redStrat blueStrat s).sequence = s.sequence + 1 := rfl
  rw [hseq] at h ⊢
  omega

/-- The whole run of `main` with iteration count `iters`: the final
`RunState` when the loop breaks. -/
def runMain (pv : PayoffValues) (redStrat blueStrat : Nat → Action)
    (iters : Nat) : RunState :=
  mainLoop pv redStrat blueStrat iters initState

/-- The `impl Strategy for Action` with `Action::COOPERATE`: a fixed
strategy that always cooperates. -/
def coopStrategy : Nat → Action := fun _ => Action.COOPERATE

/-- The `impl Strategy for Action` with `Action::DEFECT`: a fixed
strategy that always defects. -/
def defectStrategy : Nat → Action := fun _ => Action.DEFECT

/-- The amount the coordinator computes for red in round `k`:
the table value of red's payoff kind for that round. -/
def redAmountAt (pv : PayoffValues) (redStrat blueStrat : Nat → Action)
    (k : Nat) : Nat :=
  lookupAmount pv (compute_payoff (redStrat k) (blueStrat k)).1

/-- The amount the coordinator computes for blue in round `k`. -/
def blueAmountAt (pv : PayoffValues) (redStrat blueStrat : Nat → Action)
    (k : Nat) : Nat :=
  lookupAmount pv (compute_payoff (redStrat k) (blueStrat k)).2

/-- An observable event of the loop body, used to state ordering
(temporal) properties of the run.  The loop body is sequential (each
actix send is immediately awaited), so each iteration emits its events
in a fixed program order. -/
inductive Event where
  | invite (isRed : Bool) (sequence : Nat) (prevPayoff : Payoff) (prevAmount : Nat)
  | respond (isRed : Bool) (sequence : Nat) (action : Action)
  | payoffComputed (sequence : Nat) (redPayoff bluePayoff : Payoff)
  | advance (sequence : Nat)
deriving DecidableEq, Repr

/-- The events one loop iteration emits from state `s`, in program
order: invite blue (with blue's stored feedback), blue responds, invite
red, red responds, the payoff pair is computed, the sequence counter is
advanced. -/
def stepEvents (redStrat blueStrat : Nat → Action) (s : RunState) : List Event :=
  [ Event.invite false s.sequence s.bluePayoff s.blueAmount,
    Event.respond false s.sequence (blueStrat s.sequence),
    Event.invite true s.sequence s.redPayoff s.redAmount,
    Event.respond true s.sequence (redStrat s.sequence),
    Event.payoffComputed s.sequence
      (compute_payoff (redStrat s.sequence) (blueStrat s.sequence)).1
      (compute_payoff (redStrat s.sequence) (blueStrat s.sequence)).2,
    Event.advance (s.sequence + 1) ]

/-- The event trace of a run that executes `m` loop iterations. -/
def runEvents (pv : PayoffValues) (redStrat blueStrat : Nat → Action)
    (m : Nat) : List Event :=
  (List.range m).flatMap
    (fun k => stepEvents redStrat blueStrat (runSteps pv redStrat blueStrat k))

/-- Claim C1: for every ordered pair of actions, `compute_payoff`
returns exactly the spec table's mapping; in particular the
first-named (red) defector against a cooperator receives Sucker. -/
theorem compute_payoff_table :
    compute_payoff Action.COOPERATE Action.COOPERATE = (Payoff.REWARD, Payoff.REWARD)
    ∧ compute_payoff Action.DEFECT Action.DEFECT = (Payoff.PUNISHMENT, Payoff.PUNISHMENT)
    ∧ compute_payoff Action.DEFECT Action.COOPERATE = (Payoff.SUCKER, Payoff.TEMPTATION)
    ∧ compute_payoff Action.COOPERATE Action.DEFECT = (Payoff.TEMPTATION, Payoff.SUCKER) :=
  ⟨rfl, rfl, rfl, rfl⟩

/-- Claim C6: `compute_payoff` is symmetric under swapping its
arguments: the result of `compute_payoff a b` is the component-swapped
result of `compute_payoff b a`. -/
theorem compute_payoff_symm (a b : Action) :
    compute_payoff a b = ((compute_payoff b a).2, (compute_payoff b a).1) := by
  cases a <;> cases b <;> rfl

/-- Claim C7: payoff lookup is a total function (by type) that returns
0 for every kind absent from the table, and in particular returns 0 for
`NULL` on the configured table, where `NULL` is never inserted. -/
theorem lookupAmount_total_default_zero :
    (∀ (pv : PayoffValues) (k : Payoff), pv k = none → lookupAmount pv k = 0)
    ∧ lookupAmount defaultPayoffValues Payoff.NULL = 0 := by
  constructor
  · intro pv k h
    simp [lookupAmount, h]
  · rfl

/-- Witness for C7 at a concrete absent kind: the empty table maps
`REWARD` to no value, and lookup returns 0 there. -/
theorem lookupAmount_total_default_zero_witness :
    lookupAmount emptyPV Payoff.REWARD = 0 :=
  lookupAmount_total_default_zero.1 emptyPV Payoff.REWARD rfl

/-- Projection: one loop iteration increments the sequence counter. -/
theorem step_sequence (pv : PayoffValues) (rs bs : Nat → Action) (s : RunState) :
    (step pv rs bs s).sequence = s.sequence + 1 := rfl

/-- Projection: one loop iteration adds the stored red amount to red's score. -/
theorem step_red_score (pv : PayoffValues) (rs bs : Nat → Action) (s : RunState) :
    (step pv rs bs s).red.score = s.red.score + s.redAmount := rfl

/-- Projection: one loop iteration adds the stored blue amount to blue's score. -/
theorem step_blue_score (pv : PayoffValues) (rs bs : Nat → Action) (s : RunState) :
    (step pv rs bs s).blue.score = s.blue.score + s.blueAmount := rfl

/-- Projection: the red payoff kind stored by an iteration. -/
theorem step_redPayoff (pv : PayoffValues) (rs bs : Nat → Action) (s : RunState) :
    (step pv rs bs s).redPayoff = (compute_payoff (rs s.sequence) (bs s.sequence)).1 := rfl

/-- Projection: the blue payoff kind stored by an iteration. -/
theorem step_bluePayoff (pv : PayoffValues) (rs bs : Nat → Action) (s : RunState) :
    (step pv rs bs s).bluePayoff = (compute_payoff (rs s.sequence) (bs s.sequence)).2 := rfl

/-- Projection: the red amount stored by an iteration. -/
theorem step_redAmount (pv : PayoffValues) (rs bs : Nat → Action) (s : RunState) :
    (step pv rs bs s).redAmount
      = lookupAmount pv (compute_payoff (rs s.sequence) (bs s.sequence)).1 := rfl

/-- Projection: the blue amount stored by an iteration. -/
theorem step_blueAmount (pv : PayoffValues) (rs bs : Nat → Action) (s : RunState) :
    (step pv rs bs s).blueAmount
      = lookupAmount pv (compute_payoff (rs s.sequence) (bs s.sequence)).2 := rfl

/-- After `m` iterations the sequence counter is `m`. -/
theorem runSteps_sequence (pv : PayoffValues) (rs bs : Nat → Action) :
    ∀ m : Nat, (runSteps pv rs bs m).sequence = m := by
  intro m
  induction m with
  | zero => rfl
  | succ k ih =>
    show (step pv rs bs (runSteps pv rs bs k)).sequence = k + 1
    rw [step_sequence, ih]

/-- The stored red amount after `m` iterations is round `m - 1`'s
computed red amount (0 before any round). -/
theorem runSteps_redAmount (pv : PayoffValues) (rs bs : Nat → Action) :
    ∀ m : Nat, (runSteps pv rs bs m).redAmount
      = if m = 0 then 0 else redAmountAt pv rs bs (m - 1) := by
  intro m
  cases m with
  | zero => rfl
  | succ k =>
    show (step pv rs bs (runSteps pv rs bs k)).redAmount = _
    rw [step_redAmount, runSteps_sequence]
    simp [redAmountAt]

/-- The stored blue amount after `m` iterations is round `m - 1`'s
computed blue amount (0 before any round). -/
theorem runSteps_blueAmount (pv : PayoffValues) (rs bs : Nat → Action) :
    ∀ m : Nat, (runSteps pv rs bs m).blueAmount
      = if m = 0 then 0 else blueAmountAt pv rs bs (m - 1) := by
  intro m
  cases m with
  | zero => rfl
  | succ k =>
    show (step pv rs bs (runSteps pv rs bs k)).blueAmount = _
    rw [step_blueAmount, runSteps_sequence]
    simp [blueAmountAt]

/-- Red's score after `m` iterations: the sum of the computed red
amounts of rounds `0` to `m - 2` (the last computed amount has not yet
been fed back). -/
theorem runSteps_red_score (pv : PayoffValues) (rs bs : Nat → Action) :
    ∀ m : Nat, (runSteps pv rs bs m).red.score
      = ∑ j ∈ Finset.range (m - 1), redAmountAt pv rs bs j := by
  intro m
  induction m with
  | zero => simp [runSteps, initState]
  | succ k ih =>
    show (step pv rs bs (runSteps pv rs bs k)).red.score = _
    rw [step_red_score, ih, runSteps_redAmount]
    cases k with
    | zero => simp
    | succ j =>
      rw [if_neg (Nat.succ_ne_zero j)]
      simp only [Nat.succ_sub_one]
      rw [← Finset.sum_range_succ]

/-- Blue's score after `m` iterations: the sum of the computed blue
amounts of rounds `0` to `m - 2`. -/
theorem runSteps_blue_score (pv : PayoffValues) (rs bs : Nat → Action) :
    ∀ m : Nat, (runSteps pv rs bs m).blue.score
      = ∑ j ∈ Finset.range (m - 1), blueAmountAt pv rs bs j := by
  intro m
  induction m with
  | zero => simp [runSteps, initState]
  | succ k ih =>
    show (step pv rs bs (runSteps pv rs bs k)).blue.score = _
    rw [step_blue_score, ih, runSteps_blueAmount]
    cases k with
    | zero => simp
    | succ j =>
      rw [if_neg (Nat.succ_ne_zero j)]
      simp only [Nat.succ_sub_one]
      rw [← Finset.sum_range_succ]

/-- The do-while loop, entered at the state after `k` iterations with
`k < n`, runs to exactly `n` iterations. -/
theorem mainLoop_runSteps (pv : PayoffValues) (rs bs : Nat → Action) :
    ∀ (d k n : Nat), n = k + 1 + d →
      mainLoop pv rs bs n (runSteps pv rs bs k) = runSteps pv rs bs n := by
  intro d
  induction d with
  | zero =>
    intro k n hk
    have hcond : (step pv rs bs (runSteps pv rs bs k)).sequence ≥ n := by
      rw [step_sequence, runSteps_sequence]; omega
    rw [mainLoop, dif_pos hcond]
    subst hk
    rfl
  | succ d ih =>
    intro k n hk
    have hcond : ¬ (step pv rs bs (runSteps pv rs bs k)).sequence ≥ n := by
      rw [step_sequence, runSteps_sequence]; omega
    rw [mainLoop, dif_neg hcond]
    have hstep : step pv rs bs (runSteps pv rs bs k) = runSteps pv rs bs (k + 1) := rfl
    rw [hstep]
    exact ih (k + 1) n (by omega)

/-- `main`'s loop is do-while: a run requested with `iters` iterations
executes `max 1 iters` of them. -/
theorem runMain_eq_runSteps (pv : PayoffValues) (rs bs : Nat → Action) (n : Nat) :
    runMain pv rs bs n = runSteps pv rs bs (max 1 n) := by
  cases n with
  | zero =>
    have hcond : (step pv rs bs initState).sequence ≥ 0 := Nat.zero_le _
    rw [runMain, mainLoop, dif_pos hcond]
    rfl
  | succ m =>
    have h0 : runSteps pv rs bs 0 = initState := rfl
    have hmax : max 1 (m + 1) = m + 1 := by omega
    rw [runMain, ← h0, mainLoop_runSteps pv rs bs m 0 (m + 1) (by omega), hmax]

/-- Claim C10: for every run of `n` rounds (`n ≥ 1`), each agent's
final score is the sum of its computed payoff amounts for rounds `0`
through `n - 2` only: the last round's amount is added to a score only
when delivered as feedback with the next round's invitation, and no
invitation follows the last round. -/
theorem final_score_sum_drops_last (pv : PayoffValues) (rs bs : Nat → Action)
    (n : Nat) (hn : 1 ≤ n) :
    (runMain pv rs bs n).red.score = ∑ j ∈ Finset.range (n - 1), redAmountAt pv rs bs j
    ∧ (runMain pv rs bs n).blue.score = ∑ j ∈ Finset.range (n - 1), blueAmountAt pv rs bs j := by
  have hmax : max 1 n = n := by omega
  rw [runMain_eq_runSteps, hmax]
  exact ⟨runSteps_red_score pv rs bs n, runSteps_blue_score pv rs bs n⟩

/-- Witness for C10 at a 2-round Cooperate-vs-Cooperate run: each final
score is the sum over rounds 0 through 0 only. -/
theorem final_score_sum_drops_last_witness :
    (runMain defaultPayoffValues coopStrategy coopStrategy 2).red.score
      = ∑ j ∈ Finset.range (2 - 1), redAmountAt defaultPayoffValues coopStrategy coopStrategy j
    ∧ (runMain defaultPayoffValues coopStrategy coopStrategy 2).blue.score
      = ∑ j ∈ Finset.range (2 - 1), blueAmountAt defaultPayoffValues coopStrategy coopStrategy j :=
  final_score_sum_drops_last defaultPayoffValues coopStrategy coopStrategy 2 (by decide)

/-- Counterexample to claim C3 as stated: in the 2-round
Cooperate-vs-Cooperate run on the configured table, red's final score
(3) is not the sum of its computed payoff amounts over all 2 completed
rounds (6): the last round's amount is never awarded. -/
theorem score_sum_all_rounds_cex :
    (runMain defaultPayoffValues coopStrategy coopStrategy 2).red.score
      ≠ ∑ j ∈ Finset.range 2, redAmountAt defaultPayoffValues coopStrategy coopStrategy j := by
  rw [runMain_eq_runSteps]
  decide

/-- Claim C3 (amended): in every run each agent's cumulative score is
non-decreasing from round to round, and the final score equals the sum
of the computed payoff amounts over all completed rounds except the
last. -/
theorem score_monotone_and_sum (pv : PayoffValues) (rs bs : Nat → Action) :
    (∀ m : Nat,
      (runSteps pv rs bs m).red.score ≤ (runSteps pv rs bs (m + 1)).red.score
      ∧ (runSteps pv rs bs m).blue.score ≤ (runSteps pv rs bs (m + 1)).blue.score)
    ∧ ∀ n : Nat, 1 ≤ n →
      (runMain pv rs bs n).red.score = ∑ j ∈ Finset.range (n - 1), redAmountAt pv rs bs j
      ∧ (runMain pv rs bs n).blue.score = ∑ j ∈ Finset.range (n - 1), blueAmountAt pv rs bs j := by
  constructor
  · intro m
    constructor
    · show (runSteps pv rs bs m).red.score ≤ (step pv rs bs (runSteps pv rs bs m)).red.score
      rw [step_red_score]
      exact Nat.le_add_right _ _
    · show (runSteps pv rs bs m).blue.score ≤ (step pv rs bs (runSteps pv rs bs m)).blue.score
      rw [step_blue_score]
      exact Nat.le_add_right _ _
  · intro n hn
    have hmax : max 1 n = n := by omega
    rw [runMain_eq_runSteps, hmax]
    exact ⟨runSteps_red_score pv rs bs n, runSteps_blue_score pv rs bs n⟩

/-- Witness for C3 (amended) at a 3-round Defect-vs-Defect run. -/
theorem score_monotone_and_sum_witness :
    (runMain defaultPayoffValues defectStrategy defectStrategy 3).red.score
      = ∑ j ∈ Finset.range (3 - 1), redAmountAt defaultPayoffValues defectStrategy defectStrategy j
    ∧ (runMain defaultPayoffValues defectStrategy defectStrategy 3).blue.score
      = ∑ j ∈ Finset.range (3 - 1), blueAmountAt defaultPayoffValues defectStrategy defectStrategy j :=
  (score_monotone_and_sum defaultPayoffValues defectStrategy defectStrategy).2 3 (by decide)

/-- Claim C8: the `Interrogate` handler adds the fed-back amount to the
score and only then consults the strategy, and it always returns the
strategy's action (a valid `Action`; the handler is total by type).
Consequently after round `k`'s handling — the score is not touched
again between the strategy call and the end of the iteration — each
agent's score is exactly the sum of the amounts of rounds `0` to
`k - 1`, i.e. of all rounds up to and including the one just fed
back. -/
theorem interrogate_adds_then_chooses :
    (∀ (strat : Nat → Action) (p : Prisoner) (msg : Interrogate),
      (handleInterrogate strat p msg).1.score = p.score + msg.prev_amount
      ∧ (handleInterrogate strat p msg).2 = strat msg.sequence)
    ∧ ∀ (pv : PayoffValues) (rs bs : Nat → Action) (k : Nat),
      (runSteps pv rs bs (k + 1)).red.score = ∑ j ∈ Finset.range k, redAmountAt pv rs bs j
      ∧ (runSteps pv rs bs (k + 1)).blue.score = ∑ j ∈ Finset.range k, blueAmountAt pv rs bs j := by
  constructor
  · intro strat p msg
    exact ⟨rfl, rfl⟩
  · intro pv rs bs k
    have hr := runSteps_red_score pv rs bs (k + 1)
    have hb := runSteps_blue_score pv rs bs (k + 1)
    simpa using ⟨hr, hb⟩

/-- Counterexample to claim C2 as stated: with both agents on
Fixed(Cooperate) and `iteration_count = 100`, red's final score is 297,
not `100 × Reward = 300` (the last round's Reward is never awarded). -/
theorem fixed_coop_hundred_cex :
    (runMain defaultPayoffValues coopStrategy coopStrategy ITERATIONS).red.score
      ≠ ITERATIONS * lookupAmount defaultPayoffValues Payoff.REWARD
    ∧ (runMain defaultPayoffValues coopStrategy coopStrategy ITERATIONS).blue.score
      ≠ ITERATIONS * lookupAmount defaultPayoffValues Payoff.REWARD := by
  rw [runMain_eq_runSteps]
  exact ⟨by decide, by decide⟩

/-- Claim C2 (amended): with both agents on Fixed(Cooperate) and
`iteration_count = 100`, every round resolves to (Reward, Reward) and
each agent's final score is `99 × Reward` (the last round's payoff is
computed but never fed back). -/
theorem fixed_coop_hundred :
    (∀ k : Nat,
      (runSteps defaultPayoffValues coopStrategy coopStrategy (k + 1)).redPayoff = Payoff.REWARD
      ∧ (runSteps defaultPayoffValues coopStrategy coopStrategy (k + 1)).bluePayoff = Payoff.REWARD)
    ∧ (runMain defaultPayoffValues coopStrategy coopStrategy ITERATIONS).red.score
        = (ITERATIONS - 1) * lookupAmount defaultPayoffValues Payoff.REWARD
    ∧ (runMain defaultPayoffValues coopStrategy coopStrategy ITERATIONS).blue.score
        = (ITERATIONS - 1) * lookupAmount defaultPayoffValues Payoff.REWARD := by
  refine ⟨fun k => ⟨rfl, rfl⟩, ?_, ?_⟩
  · rw [runMain_eq_runSteps]
    decide
  · rw [runMain_eq_runSteps]
    decide

/-- Counterexample to claim C4 as stated: in the 5-round
Fixed(Defect) (red) vs Fixed(Cooperate) (blue) run, it is false that
the cooperator ends at `5 × Sucker` and the defector at
`5 × Temptation`: the code gives the cooperator Temptation and the
defector Sucker each round, and only 4 rounds' amounts are awarded
(blue ends at 16, red at 4). -/
theorem asym_five_rounds_cex :
    (runMain defaultPayoffValues defectStrategy coopStrategy 5).blue.score
      ≠ 5 * lookupAmount defaultPayoffValues Payoff.SUCKER
    ∧ (runMain defaultPayoffValues defectStrategy coopStrategy 5).red.score
      ≠ 5 * lookupAmount defaultPayoffValues Payoff.TEMPTATION := by
  rw [runMain_eq_runSteps]
  exact ⟨by decide, by decide⟩

/-- Claim C4 (amended): in the 5-round Fixed(Defect) (red) vs
Fixed(Cooperate) (blue) run, every round resolves the same way — the
defector's payoff kind is Sucker and the cooperator's is Temptation —
and the final scores are `4 × Sucker` for the defector and
`4 × Temptation` for the cooperator. -/
theorem asym_five_rounds :
    (∀ k : Nat,
      (runSteps defaultPayoffValues defectStrategy coopStrategy (k + 1)).redPayoff = Payoff.SUCKER
      ∧ (runSteps defaultPayoffValues defectStrategy coopStrategy (k + 1)).bluePayoff = Payoff.TEMPTATION)
    ∧ (runMain defaultPayoffValues defectStrategy coopStrategy 5).red.score
        = 4 * lookupAmount defaultPayoffValues Payoff.SUCKER
    ∧ (runMain defaultPayoffValues defectStrategy coopStrategy 5).blue.score
        = 4 * lookupAmount defaultPayoffValues Payoff.TEMPTATION := by
  refine ⟨fun k => ⟨rfl, rfl⟩, ?_, ?_⟩
  · rw [runMain_eq_runSteps]
    decide
  · rw [runMain_eq_runSteps]
    decide

/-- Counterexample to claim C5 as stated: the embedded construction and
run are total (there is no ConfigurationError path in the code), and a
run requested with `iteration_count = 0` does not fail before any round
executes — the do-while loop runs one full round (the sequence counter
reaches 1 and a Reward payoff is computed). -/
theorem zero_iterations_cex :
    (runMain defaultPayoffValues coopStrategy coopStrategy 0).sequence = 1
    ∧ (runMain defaultPayoffValues coopStrategy coopStrategy 0).redPayoff = Payoff.REWARD := by
  rw [runMain_eq_runSteps]
  decide

/-- Claim C5 (amended): the code performs no configuration validation
and has no error path: the iteration count and payoff table are
hard-coded, and they do satisfy `iteration_count > 0`,
Temptation > Reward > Punishment > Sucker and
`2·Reward > Temptation + Sucker`; every run (any strategies, any
requested iteration count `n`, including 0) completes normally, with
`max 1 n` rounds executed. -/
theorem config_hardcoded_valid_no_rejection :
    0 < ITERATIONS
    ∧ lookupAmount defaultPayoffValues Payoff.TEMPTATION
        > lookupAmount defaultPayoffValues Payoff.REWARD
    ∧ lookupAmount defaultPayoffValues Payoff.REWARD
        > lookupAmount defaultPayoffValues Payoff.PUNISHMENT
    ∧ lookupAmount defaultPayoffValues Payoff.PUNISHMENT
        > lookupAmount defaultPayoffValues Payoff.SUCKER
    ∧ 2 * lookupAmount defaultPayoffValues Payoff.REWARD
        > lookupAmount defaultPayoffValues Payoff.TEMPTATION
          + lookupAmount defaultPayoffValues Payoff.SUCKER
    ∧ ∀ (rs bs : Nat → Action) (n : Nat),
        (runMain defaultPayoffValues rs bs n).sequence = max 1 n := by
  refine ⟨by decide, by decide, by decide, by decide, by decide, ?_⟩
  intro rs bs n
  rw [runMain_eq_runSteps, runSteps_sequence]

/-- The events of the iteration entered after `k` completed rounds all
carry sequence number `k` (the advance event carries `k + 1`). -/
theorem stepEvents_runSteps (pv : PayoffValues) (rs bs : Nat → Action) (k : Nat) :
    stepEvents rs bs (runSteps pv rs bs k) =
      [ Event.invite false k (runSteps pv rs bs k).bluePayoff (runSteps pv rs bs k).blueAmount,
        Event.respond false k (bs k),
        Event.invite true k (runSteps pv rs bs k).redPayoff (runSteps pv rs bs k).redAmount,
        Event.respond true k (rs k),
        Event.payoffComputed k (compute_payoff (rs k) (bs k)).1 (compute_payoff (rs k) (bs k)).2,
        Event.advance (k + 1) ] := by
  simp [stepEvents, runSteps_sequence]

/-- An invitation event found in round `k`'s iteration carries
sequence number `k`. -/
theorem invite_mem_stepEvents (pv : PayoffValues) (rs bs : Nat → Action) (k : Nat)
    (a : Bool) (sq : Nat) (pf : Payoff) (amt : Nat)
    (h : Event.invite a sq pf amt ∈ stepEvents rs bs (runSteps pv rs bs k)) : sq = k := by
  rw [stepEvents_runSteps] at h
  simp only [List.mem_cons, List.not_mem_nil, or_false, Event.invite.injEq] at h
  rcases h with ⟨-, h, -⟩ | h | ⟨-, h, -⟩ | h | h | h
  · exact h
  · exact Event.noConfusion h
  · exact h
  · exact Event.noConfusion h
  · exact Event.noConfusion h
  · exact Event.noConfusion h

/-- Claim C9: the run's event trace respects the round barrier.  For
every executed round `k`, the trace is: the `k` earlier rounds' events,
then round `k`'s block in program order — blue invited with its stored
feedback, blue responds, red invited, red responds, round `k`'s payoff
pair is computed from both responses, and only then is the sequence
counter advanced to `k + 1` — and then a tail in which every
invitation carries a sequence number at least `k + 1`; every
invitation among the earlier rounds' events carries a sequence number
below `k`; and the feedback stored before round 0 (hence carried by
round 0's invitations) is `{NULL, 0}` for both agents. -/
theorem round_barrier (pv : PayoffValues) (rs bs : Nat → Action) (m k : Nat)
    (hk : k < m) :
    (∃ t : List Event,
      runEvents pv rs bs m =
        runEvents pv rs bs k ++
          ([Event.invite false k (runSteps pv rs bs k).bluePayoff (runSteps pv rs bs k).blueAmount,
            Event.respond false k (bs k),
            Event.invite true k (runSteps pv rs bs k).redPayoff (runSteps pv rs bs k).redAmount,
            Event.respond true k (rs k),
            Event.payoffComputed k (compute_payoff (rs k) (bs k)).1 (compute_payoff (rs k) (bs k)).2,
            Event.advance (k + 1)] ++ t)
      ∧ (∀ (a : Bool) (sq : Nat) (pf : Payoff) (amt : Nat),
          Event.invite a sq pf amt ∈ runEvents pv rs bs k → sq < k)
      ∧ (∀ (a : Bool) (sq : Nat) (pf : Payoff) (amt : Nat),
          Event.invite a sq pf amt ∈ t → k + 1 ≤ sq))
    ∧ (runSteps pv rs bs 0).bluePayoff = Payoff.NULL
    ∧ (runSteps pv rs bs 0).blueAmount = 0
    ∧ (runSteps pv rs bs 0).redPayoff = Payoff.NULL
    ∧ (runSteps pv rs bs 0).redAmount = 0 := by
  refine ⟨⟨((List.range (m - (k + 1))).map (fun x => (k + 1) + x)).flatMap
      (fun j => stepEvents rs bs (runSteps pv rs bs j)), ?_, ?_, ?_⟩, rfl, rfl, rfl, rfl⟩
  · have hsplit : List.range m
        = List.range (k + 1) ++ (List.range (m - (k + 1))).map (fun x => (k + 1) + x) := by
      conv_lhs => rw [show m = (k + 1) + (m - (k + 1)) from by omega]
      exact List.range_add _ _
    show (List.range m).flatMap (fun j => stepEvents rs bs (runSteps pv rs bs j)) = _
    rw [hsplit, List.flatMap_append, List.range_succ, List.flatMap_append]
    rw [show ([k] : List Nat).flatMap (fun j => stepEvents rs bs (runSteps pv rs bs j))
        = stepEvents rs bs (runSteps pv rs bs k) from by simp]
    rw [stepEvents_runSteps, List.append_assoc]
    rfl
  · intro a sq pf amt hmem
    rw [runEvents, List.mem_flatMap] at hmem
    obtain ⟨j, hj, hmem⟩ := hmem
    rw [List.mem_range] at hj
    have hsq := invite_mem_stepEvents pv rs bs j a sq pf amt hmem
    omega
  · intro a sq pf amt hmem
    rw [List.mem_flatMap] at hmem
    obtain ⟨j, hj, hmem⟩ := hmem
    rw [List.mem_map] at hj
    obtain ⟨i, hi, rfl⟩ := hj
    have hsq := invite_mem_stepEvents pv rs bs ((k + 1) + i) a sq pf amt hmem
    omega

/-- Witness for C9 at a concrete 1-round Cooperate-vs-Cooperate run
with `k = 0`. -/
theorem round_barrier_witness :
    (∃ t : List Event,
      runEvents defaultPayoffValues coopStrategy coopStrategy 1 =
        runEvents defaultPayoffValues coopStrategy coopStrategy 0 ++
          ([Event.invite false 0
              (runSteps defaultPayoffValues coopStrategy coopStrategy 0).bluePayoff
              (runSteps defaultPayoffValues coopStrategy coopStrategy 0).blueAmount,
            Event.respond false 0 (coopStrategy 0),
            Event.invite true 0
              (runSteps defaultPayoffValues coopStrategy coopStrategy 0).redPayoff
              (runSteps defaultPayoffValues coopStrategy coopStrategy 0).redAmount,
            Event.respond true 0 (coopStrategy 0),
            Event.payoffComputed 0 (compute_payoff (coopStrategy 0) (coopStrategy 0)).1
              (compute_payoff (coopStrategy 0) (coopStrategy 0)).2,
            Event.advance (0 + 1)] ++ t)
      ∧ (∀ (a : Bool) (sq : Nat) (pf : Payoff) (amt : Nat),
          Event.invite a sq pf amt ∈ runEvents defaultPayoffValues coopStrategy coopStrategy 0
            → sq < 0)
      ∧ (∀ (a : Bool) (sq : Nat) (pf : Payoff) (amt : Nat),
          Event.invite a sq pf amt ∈ t → 0 + 1 ≤ sq))
    ∧ (runSteps defaultPayoffValues coopStrategy coopStrategy 0).bluePayoff = Payoff.NULL
    ∧ (runSteps defaultPayoffValues coopStrategy coopStrategy 0).blueAmount = 0
    ∧ (runSteps defaultPayoffValues coopStrategy coopStrategy 0).redPayoff = Payoff.NULL
    ∧ (runSteps defaultPayoffValues coopStrategy coopStrategy 0).redAmount = 0 :=
  round_barrier defaultPayoffValues coopStrategy coopStrategy 1 0 (by decide)

end Actoripd
